import Mathlib

/-!
Shallow embedding of the gke-serviceaccounts-initializer controller.

The repository contains two variants of the same controller:
* `cmd/gke-serviceaccounts-initializer/main.go` — watches Pods; the core
  functions are `needsInitialization`, `clonePod`, `modifyPodSpec`,
  `removeSelfPendingInitializer`, `patchPod` and the informer `AddFunc`.
* `main.go` (repository root) — watches Deployments; the whole pipeline is
  inlined in `initializeDeployment`.

Only the fields of the Kubernetes API types that the source reads or writes
are modelled.  Go nil-able slices and maps are modelled as `Option (List _)`
where the nil/empty distinction is observable in the source (the pending
initializer list), and as plain lists otherwise.  Run-time panics
(nil-pointer dereference, index out of range) are modelled with `Except`.
-/

namespace GkeInit

/-- Entry of `metav1.Initializers.Pending` (only the `Name` field is used). -/
structure Initializer where
  name : String
deriving DecidableEq, Repr

/-- The `metav1.Initializers` struct; its `Pending` slice may be nil. -/
structure Initializers where
  pending : Option (List Initializer)
deriving DecidableEq, Repr

/-- Entry of a secret volume source's `Items`. -/
structure KeyToPath where
  key : String
  path : String
deriving DecidableEq, Repr

/-- The `corev1.SecretVolumeSource` fields used by the source. -/
structure SecretVolumeSource where
  secretName : String
  items : List KeyToPath
deriving DecidableEq, Repr

/-- The `corev1.VolumeSource` fields used by the source (`Secret` pointer). -/
structure VolumeSource where
  secret : Option SecretVolumeSource
deriving DecidableEq, Repr

/-- A `corev1.Volume`. -/
structure Volume where
  name : String
  volumeSource : VolumeSource
deriving DecidableEq, Repr

/-- A `corev1.VolumeMount`. -/
structure VolumeMount where
  name : String
  mountPath : String
  subPath : String
  readOnly : Bool
deriving DecidableEq, Repr

/-- A `corev1.EnvVar`. -/
structure EnvVar where
  name : String
  value : String
deriving DecidableEq, Repr

/-- The `corev1.Container` fields used by the source. -/
structure Container where
  name : String
  image : String
  volumeMounts : List VolumeMount
  env : List EnvVar
deriving DecidableEq, Repr

/-- The `corev1.PodSpec` fields used by the source. -/
structure PodSpec where
  containers : List Container
  volumes : List Volume
deriving DecidableEq, Repr

/-- The `metav1.ObjectMeta` fields used by the source.  `Annotations` is a
Go map which may be nil; `Initializers` is a nil-able pointer. -/
structure ObjectMeta where
  name : String
  annotations : Option (List (String × String))
  initializers : Option Initializers
deriving DecidableEq, Repr

/-- A `corev1.Pod` restricted to the fields the source uses. -/
structure Pod where
  metadata : ObjectMeta
  spec : PodSpec
deriving DecidableEq, Repr

/-- A `v1beta1.Deployment` restricted to the fields the source uses:
`ObjectMeta` and `Spec.Template.Spec` (its pod template's pod spec). -/
structure Deployment where
  metadata : ObjectMeta
  template : PodSpec
deriving DecidableEq, Repr

/-- Reading a Go slice that may be nil: `len` and indexing treat nil as
the empty slice. -/
def goSlice {α : Type} (s : Option (List α)) : List α := s.getD []

/-- Reading a Go map that may be nil: lookup on a nil map yields no entry. -/
def goMap (m : Option (List (String × String))) : List (String × String) := m.getD []

/-- Go map lookup `v, ok := m[k]` on an association list. -/
def mapLookup (m : List (String × String)) (k : String) : Option String :=
  (m.find? (fun kv => kv.fst == k)).map (fun kv => kv.snd)

/-- Annotation key used by the Pod variant (`cmd/.../main.go`):
`iam.cloud.google.com/service-account`. -/
def annotationKey : String := "iam.cloud.google.com/service-account"

/-- Annotation key used by the Deployment variant (root `main.go`):
`iam.cloud.google.com/account-name`. -/
def annotationKeyD : String := "iam.cloud.google.com/account-name"

/-- The controller's own initializer name. -/
def initializerName : String := "serviceaccounts.cloud.google.com"

/-- The `secretMountPath` constant. -/
def secretMountPath : String := "/var/run/secrets/gcp/"

/-- The `serviceAccountFile` constant. -/
def serviceAccountFile : String := "key.json"

/-! ### Model of Go's `path.Clean` and `path.Join`

`path.Join(elem...)` skips leading empty elements, joins the rest with
`/` and applies `path.Clean`.  `path.Clean` is the standard lexical
cleaner: it drops empty and `.` segments, resolves `..` against previous
segments (discarding `..` at the root), and roots the result iff the
input was rooted.  The model below works on segment lists. -/

/-- Split a character list on `/` (boundary-preserving, so `"a//b"` gives
an empty middle segment, as Go's cleaner effectively sees it). -/
def splitSlash : List Char → List (List Char)
  | [] => [[]]
  | c :: cs =>
    let r := splitSlash cs
    if c = '/' then [] :: r
    else (c :: r.headD []) :: r.tail

/-- One step of `path.Clean`'s segment processing, on a reversed stack of
kept segments: empty and `.` segments are dropped; `..` pops the previous
segment when one exists, disappears at the root, and is kept (only in
relative paths) when nothing is left to pop. -/
def cleanPush (rooted : Bool) (acc : List (List Char)) (seg : List Char) : List (List Char) :=
  if seg = [] ∨ seg = ['.'] then acc
  else if seg = ['.', '.'] then
    match acc with
    | [] => if rooted then [] else [seg]
    | top :: rest => if top = ['.', '.'] then seg :: acc else rest
  else seg :: acc

/-- Join segments back with `/` separators. -/
def joinSegs : List (List Char) → List Char
  | [] => []
  | [s] => s
  | s :: ss => s ++ '/' :: joinSegs ss

/-- Reassemble the cleaned segments: rooted results keep their leading `/`
(`/` alone when nothing remains), relative results fall back to `.` when
nothing remains. -/
def assemble (rooted : Bool) (segs : List (List Char)) : List Char :=
  if rooted then '/' :: joinSegs segs
  else if segs.isEmpty then ['.'] else joinSegs segs

/-- `path.Clean` on a character list. -/
def pathCleanL (l : List Char) : List Char :=
  match l with
  | [] => ['.']
  | c :: cs =>
    assemble (c == '/') (((splitSlash (c :: cs)).foldl (cleanPush (c == '/')) []).reverse)

/-- Go's `path.Clean`. -/
def pathClean (p : String) : String := ⟨pathCleanL p.data⟩

/-- Go's `path.Join` restricted to two elements (the only arity the source
uses): skip leading empty elements, join with `/`, clean. -/
def pathJoin2 (a b : String) : String :=
  if a = "" then (if b = "" then "" else pathClean b) else pathClean (a ++ "/" ++ b)

/-! ### The Pod variant (`cmd/gke-serviceaccounts-initializer/main.go`) -/

/-- Go run-time panics that the source can hit. -/
inductive GoPanic where
  | nilDeref
  | indexOutOfRange
deriving DecidableEq, Repr

/-- The gate `needsInitialization`: `initializers != nil &&
len(initializers.Pending) > 0 && initializers.Pending[0].Name ==
initializerName` (the short-circuit guard before the indexing is rendered
as a pattern match on the slice). -/
def needsInitialization (pod : Pod) : Bool :=
  match pod.metadata.initializers with
  | none => false
  | some inits =>
    match goSlice inits.pending with
    | [] => false
    | p0 :: _ => p0.name == initializerName

/-- Body of the per-container injection in `modifyPodSpec`: append one
VolumeMount and one EnvVar to the container (`volName`, `mountPath` and
`keyPath` exactly as computed by the source). -/
def injectContainer (serviceAccountName : String) (c : Container) : Container :=
  let volName := "gcp-" ++ serviceAccountName
  let mountPath := pathJoin2 secretMountPath serviceAccountName
  let keyPath := pathJoin2 mountPath serviceAccountFile
  { c with
    volumeMounts := c.volumeMounts ++
      [{ name := volName, mountPath := mountPath, subPath := "", readOnly := true }],
    env := c.env ++
      [{ name := "GOOGLE_APPLICATION_CREDENTIALS", value := keyPath }] }

/-- The Volume value appended by the injection loop. -/
def saVolume (serviceAccountName : String) : Volume :=
  { name := "gcp-" ++ serviceAccountName,
    volumeSource :=
      { secret :=
          some { secretName := serviceAccountName,
                 items := [{ key := "key.json", path := "key.json" }] } } }

/-- The `for i, c := range pod.Spec.Containers` loop of `modifyPodSpec`
(also inlined in `initializeDeployment`): each iteration appends the
Volume to `Spec.Volumes` and the VolumeMount/EnvVar to container `i`, so
one Volume is appended per container. -/
def modifyLoop (serviceAccountName : String) (spec : PodSpec) : PodSpec :=
  { containers := spec.containers.map (injectContainer serviceAccountName),
    volumes := spec.volumes ++ spec.containers.map (fun _ => saVolume serviceAccountName) }

/-- `modifyPodSpec`: nil pod or nil annotations map or missing annotation
key yield no change and `false`; otherwise the injection loop runs and the
function returns `true` unconditionally. -/
def modifyPodSpec (pod : Option Pod) : Option Pod × Bool :=
  match pod with
  | none => (none, false)
  | some p =>
    match p.metadata.annotations with
    | none => (some p, false)
    | some annots =>
      match mapLookup annots annotationKey with
      | none => (some p, false)
      | some serviceAccountName =>
        (some { p with spec := modifyLoop serviceAccountName p.spec }, true)

/-- `removeSelfPendingInitializer` on a non-nil pod: nil initializers is an
early return; a pending slice of length 1 is replaced by nil; length > 1
keeps the tail (the in-place `append(p[:0], p[1:]...)` shifts the pod's own
backing array and the pod's slice header is replaced by the result, so the
pod's view is exactly the tail); length 0 falls through both branches. -/
def removeSelfPendingInitializer (pod : Pod) : Pod :=
  match pod.metadata.initializers with
  | none => pod
  | some inits =>
    let pending := goSlice inits.pending
    if pending.length = 1 then
      { pod with metadata := { pod.metadata with initializers := some { pending := none } } }
    else if pending.length > 1 then
      { pod with metadata := { pod.metadata with initializers := some { pending := some pending.tail } } }
    else pod

/-- `removeSelfPendingInitializer` as called on a possibly-nil `*corev1.Pod`:
`pod.ObjectMeta.GetInitializers()` dereferences the pointer, so a nil pod
panics. -/
def removeSelfPendingInitializerGo (pod : Option Pod) : Except GoPanic Pod :=
  match pod with
  | none => .error .nilDeref
  | some p => .ok (removeSelfPendingInitializer p)

/-- Observable outcome of one informer `AddFunc` invocation. -/
structure HandlerTrace where
  skippedByGate : Bool
  cloneErrorLogged : Bool
  injected : Option Bool
  crashed : Bool
  patchCount : Nat
  patchNew : Option Pod
  origAfter : Pod
deriving DecidableEq, Repr

/-- The informer `AddFunc` of the Pod variant.  `cloneFails` models the
environment: whether `clonePod` returns an error (in which case it returns
a nil pod).  Note the source logs a clone error but does not return, so the
nil clone flows into `modifyPodSpec` (which checks for nil) and then into
`removeSelfPendingInitializer` (which dereferences it and panics).  A
successful clone is a deep copy, so the handler works on an independent
value and the original pod is never written to. -/
def addFunc (pod : Pod) (cloneFails : Bool) : HandlerTrace :=
  if !needsInitialization pod then
    { skippedByGate := true, cloneErrorLogged := false, injected := none,
      crashed := false, patchCount := 0, patchNew := none, origAfter := pod }
  else
    let modifiedPod : Option Pod := if cloneFails then none else some pod
    let step := modifyPodSpec modifiedPod
    match removeSelfPendingInitializerGo step.fst with
    | .error _ =>
      { skippedByGate := false, cloneErrorLogged := cloneFails, injected := some step.snd,
        crashed := true, patchCount := 0, patchNew := none, origAfter := pod }
    | .ok finalPod =>
      { skippedByGate := false, cloneErrorLogged := cloneFails, injected := some step.snd,
        crashed := false, patchCount := 1, patchNew := some finalPod, origAfter := pod }

/-! ### The Deployment variant (root `main.go`) -/

/-- Effect of Go's `append(s[:0], s[1:]...)` on the backing array of `s`:
the elements shift left by one in place, the last slot keeps its old
value, and the array length is unchanged. -/
def appendShiftBacking {α : Type} : List α → List α
  | [] => []
  | x :: xs => xs ++ [xs.getLastD x]

/-- Observable outcome of one `initializeDeployment` invocation. -/
structure DeployTrace where
  updateCalls : Nat
  patchCalls : Nat
  origAfter : Deployment
  pushed : Option Deployment
deriving DecidableEq, Repr

/-- `initializeDeployment` from the root `main.go`.  Control flow of the
source: if `Initializers` is non-nil it immediately reads
`pendingInitializers[0]` (panicking on an empty slice); on a name match it
deep-copies, pops the queue — for more than one entry via
`append(pendingInitializers[:0], pendingInitializers[1:]...)`, which
shifts the ORIGINAL deployment's backing array in place — then looks up
the annotation on the original: if absent it calls `Update` once with the
popped copy, otherwise it runs the injection loop and calls `Patch`
once. -/
def initializeDeployment (d : Deployment) : Except GoPanic DeployTrace :=
  match d.metadata.initializers with
  | none => .ok { updateCalls := 0, patchCalls := 0, origAfter := d, pushed := none }
  | some inits =>
    match goSlice inits.pending with
    | [] => .error .indexOutOfRange
    | p0 :: rest =>
      if p0.name = initializerName then
        let pending := p0 :: rest
        let popped : Option Initializers :=
          if pending.length = 1 then none else some { pending := some rest }
        let shifted : Option Initializers :=
          some { pending := some (appendShiftBacking pending) }
        let origAfter : Deployment :=
          if pending.length = 1 then d
          else { d with metadata := { d.metadata with initializers := shifted } }
        let initialized : Deployment :=
          { d with metadata := { d.metadata with initializers := popped } }
        match mapLookup (goMap d.metadata.annotations) annotationKeyD with
        | none =>
          .ok { updateCalls := 1, patchCalls := 0, origAfter := origAfter,
                pushed := some initialized }
        | some serviceAccountName =>
          let final : Deployment :=
            { initialized with
              template := modifyLoop serviceAccountName initialized.template }
          .ok { updateCalls := 0, patchCalls := 1, origAfter := origAfter,
                pushed := some final }
      else .ok { updateCalls := 0, patchCalls := 0, origAfter := d, pushed := none }

/-- Convenience constructor: the pod with its pending-initializer slice
replaced (the `Initializers` struct itself kept present). -/
def withPending (pod : Pod) (p : Option (List Initializer)) : Pod :=
  { pod with metadata := { pod.metadata with initializers := some { pending := p } } }

/-- Expected injected VolumeMount for annotation value `sa`, as the spec
states it: name `gcp-<S>`, mount path `<secretMountRoot><S>`, read-only,
no subpath. -/
def specMountFor (sa : String) : VolumeMount :=
  { name := "gcp-" ++ sa, mountPath := secretMountPath ++ sa, subPath := "", readOnly := true }

/-- Expected injected EnvVar for annotation value `sa`, as the spec states
it: `GOOGLE_APPLICATION_CREDENTIALS` = `<secretMountRoot><S>/key.json`. -/
def specEnvFor (sa : String) : EnvVar :=
  { name := "GOOGLE_APPLICATION_CREDENTIALS", value := secretMountPath ++ sa ++ "/key.json" }

/-! ### Concrete example objects -/

def exC1 : Container := { name := "c1", image := "i1", volumeMounts := [], env := [] }

def exC2 : Container := { name := "c2", image := "i2", volumeMounts := [], env := [] }

def mkPod (inits : Option Initializers) (annots : Option (List (String × String)))
    (cs : List Container) : Pod :=
  { metadata := { name := "foo", annotations := annots, initializers := inits },
    spec := { containers := cs, volumes := [] } }

def mkDep (inits : Option Initializers) (annots : Option (List (String × String)))
    (cs : List Container) : Deployment :=
  { metadata := { name := "dep", annotations := annots, initializers := inits },
    template := { containers := cs, volumes := [] } }

def podNoInits : Pod := mkPod none none []

def podNilPending : Pod := mkPod (some { pending := none }) none []

def podEmptyPending : Pod := mkPod (some { pending := some [] }) none []

def podOnePending : Pod := mkPod (some { pending := some [{ name := "a.b.c" }] }) none []

def podTwoPending : Pod :=
  mkPod (some { pending := some [{ name := "a.b.c" }, { name := "d.e.f" }] }) none []

def podEligible : Pod :=
  mkPod (some { pending := some [{ name := initializerName }] }) none [exC1]

def podTwoContainers : Pod :=
  mkPod (some { pending := some [{ name := initializerName }] })
    (some [(annotationKey, "sa-1")]) [exC1, exC2]

def podZeroContainers : Pod :=
  mkPod (some { pending := some [{ name := initializerName }] })
    (some [(annotationKey, "sa-1")]) []

def podDotDot : Pod := mkPod none (some [(annotationKey, "..")]) [exC1]

def podMount : Pod :=
  mkPod (some { pending := some [{ name := initializerName }] })
    (some [(annotationKey, "sa-1")]) [exC1]

def depTwoContainers : Deployment :=
  mkDep (some { pending := some [{ name := initializerName }] })
    (some [(annotationKeyD, "sa-1")]) [exC1, exC2]

def depAliased : Deployment :=
  mkDep (some { pending := some [{ name := initializerName }, { name := "a.b.c" }] }) none []

def depAliasedAfter : Deployment :=
  mkDep (some { pending := some [{ name := "a.b.c" }, { name := "a.b.c" }] }) none []

def depEmptyPending : Deployment := mkDep (some { pending := some [] }) none []

/-! ### Helper lemmas -/

theorem string_eq_of_data (a b : String) (h : a.data = b.data) : a = b := by
  cases a
  cases b
  exact congrArg String.mk h

theorem splitSlash_sep (xs ys : List Char) (h : '/' ∉ xs) :
    splitSlash (xs ++ '/' :: ys) = xs :: splitSlash ys := by
  induction xs with
  | nil => simp [splitSlash]
  | cons c cs ih =>
    have hc : c ≠ '/' := by
      intro e
      exact h (e ▸ List.mem_cons_self c cs)
    have hcs : '/' ∉ cs := fun m => h (List.mem_cons_of_mem c m)
    simp [splitSlash, ih hcs, hc]

theorem splitSlash_noslash (xs : List Char) (h : '/' ∉ xs) : splitSlash xs = [xs] := by
  induction xs with
  | nil => simp [splitSlash]
  | cons c cs ih =>
    have hc : c ≠ '/' := by
      intro e
      exact h (e ▸ List.mem_cons_self c cs)
    have hcs : '/' ∉ cs := fun m => h (List.mem_cons_of_mem c m)
    simp [splitSlash, ih hcs, hc]

theorem cleanPush_push (rooted : Bool) (acc : List (List Char)) (seg : List Char)
    (h1 : seg ≠ []) (h2 : seg ≠ ['.']) (h3 : seg ≠ ['.', '.']) :
    cleanPush rooted acc seg = seg :: acc := by
  unfold cleanPush
  rw [if_neg (by simp [h1, h2]), if_neg h3]

theorem getLast?_append_one {α : Type} (l : List α) (a : α) :
    (l ++ [a]).getLast? = some a := by
  exact List.getLast?_concat l

/-- Cleaning `/var/run/secrets/gcp//<seg>` for a plain segment gives
`/var/run/secrets/gcp/<seg>` (the duplicate separator is collapsed). -/
theorem pathCleanL_mount (l : List Char) (h1 : l ≠ []) (h2 : '/' ∉ l)
    (h3 : l ≠ ['.']) (h4 : l ≠ ['.', '.']) :
    pathCleanL ("/var/run/secrets/gcp//".data ++ l) = "/var/run/secrets/gcp/".data ++ l := by
  have hsplit : splitSlash ('/' :: ("var/run/secrets/gcp//".data ++ l))
      = [[], "var".data, "run".data, "secrets".data, "gcp".data, [], l] := by
    rw [show ('/' :: ("var/run/secrets/gcp//".data ++ l))
        = [] ++ '/' :: ("var".data ++ '/' :: ("run".data ++ '/' :: ("secrets".data ++ '/' ::
            ("gcp".data ++ '/' :: ([] ++ '/' :: l))))) from rfl]
    rw [splitSlash_sep _ _ (by decide), splitSlash_sep _ _ (by decide),
        splitSlash_sep _ _ (by decide), splitSlash_sep _ _ (by decide),
        splitSlash_sep _ _ (by decide), splitSlash_sep _ _ (by decide),
        splitSlash_noslash _ h2]
  rw [show "/var/run/secrets/gcp//".data ++ l
      = '/' :: ("var/run/secrets/gcp//".data ++ l) from rfl]
  simp only [pathCleanL]
  rw [show (('/' : Char) == '/') = true from rfl]
  rw [hsplit]
  rw [show List.foldl (cleanPush true) []
        [[], "var".data, "run".data, "secrets".data, "gcp".data, [], l]
      = cleanPush true ["gcp".data, "secrets".data, "run".data, "var".data] l from rfl]
  rw [cleanPush_push true _ l h1 h3 h4]
  rfl

/-- Cleaning `/var/run/secrets/gcp/<seg>/key.json` for a plain segment is
the identity. -/
theorem pathCleanL_key (l : List Char) (h1 : l ≠ []) (h2 : '/' ∉ l)
    (h3 : l ≠ ['.']) (h4 : l ≠ ['.', '.']) :
    pathCleanL ("/var/run/secrets/gcp/".data ++ (l ++ '/' :: "key.json".data))
      = "/var/run/secrets/gcp/".data ++ (l ++ '/' :: "key.json".data) := by
  have hsplit : splitSlash ('/' :: ("var/run/secrets/gcp/".data ++ (l ++ '/' :: "key.json".data)))
      = [[], "var".data, "run".data, "secrets".data, "gcp".data, l, "key.json".data] := by
    rw [show ('/' :: ("var/run/secrets/gcp/".data ++ (l ++ '/' :: "key.json".data)))
        = [] ++ '/' :: ("var".data ++ '/' :: ("run".data ++ '/' :: ("secrets".data ++ '/' ::
            ("gcp".data ++ '/' :: (l ++ '/' :: "key.json".data))))) from rfl]
    rw [splitSlash_sep _ _ (by decide), splitSlash_sep _ _ (by decide),
        splitSlash_sep _ _ (by decide), splitSlash_sep _ _ (by decide),
        splitSlash_sep _ _ (by decide), splitSlash_sep _ _ h2,
        splitSlash_noslash _ (by decide)]
  rw [show "/var/run/secrets/gcp/".data ++ (l ++ '/' :: "key.json".data)
      = '/' :: ("var/run/secrets/gcp/".data ++ (l ++ '/' :: "key.json".data)) from rfl]
  simp only [pathCleanL]
  rw [show (('/' : Char) == '/') = true from rfl]
  rw [hsplit]
  rw [show List.foldl (cleanPush true) []
        [[], "var".data, "run".data, "secrets".data, "gcp".data, l, "key.json".data]
      = List.foldl (cleanPush true) ["gcp".data, "secrets".data, "run".data, "var".data]
          [l, "key.json".data] from rfl]
  rw [List.foldl_cons, cleanPush_push true _ l h1 h3 h4,
      List.foldl_cons, cleanPush_push true _ "key.json".data (by decide) (by decide) (by decide),
      List.foldl_nil]
  rfl

/-- `path.Join(secretMountPath, s)` for a plain name `s` is plain
concatenation. -/
theorem pathJoin2_mount (sa : String) (h1 : sa ≠ "") (h2 : '/' ∉ sa.data)
    (h3 : sa ≠ ".") (h4 : sa ≠ "..") :
    pathJoin2 secretMountPath sa = secretMountPath ++ sa := by
  obtain ⟨l⟩ := sa
  have h1l : l ≠ [] := by
    intro e
    exact h1 (by rw [e])
  have h3l : l ≠ ['.'] := by
    intro e
    exact h3 (by rw [e])
  have h4l : l ≠ ['.', '.'] := by
    intro e
    exact h4 (by rw [e])
  unfold pathJoin2
  rw [if_neg (by decide : ¬(secretMountPath = ""))]
  unfold pathClean
  apply string_eq_of_data
  show pathCleanL ("/var/run/secrets/gcp//".data ++ l) = "/var/run/secrets/gcp/".data ++ l
  exact pathCleanL_mount l h1l h2 h3l h4l

/-- `path.Join(mountPath, serviceAccountFile)` for a plain name appends
`/key.json`. -/
theorem pathJoin2_key (sa : String) (h1 : sa ≠ "") (h2 : '/' ∉ sa.data)
    (h3 : sa ≠ ".") (h4 : sa ≠ "..") :
    pathJoin2 (secretMountPath ++ sa) serviceAccountFile
      = secretMountPath ++ sa ++ "/key.json" := by
  obtain ⟨l⟩ := sa
  have h1l : l ≠ [] := by
    intro e
    exact h1 (by rw [e])
  have h3l : l ≠ ['.'] := by
    intro e
    exact h3 (by rw [e])
  have h4l : l ≠ ['.', '.'] := by
    intro e
    exact h4 (by rw [e])
  have hne : ¬(secretMountPath ++ (⟨l⟩ : String) = "") := by
    intro e
    have h5 := congrArg String.data e
    rw [show (secretMountPath ++ (⟨l⟩ : String)).data
        = '/' :: ("var/run/secrets/gcp/".data ++ l) from rfl] at h5
    exact List.cons_ne_nil _ _ h5
  unfold pathJoin2
  rw [if_neg hne]
  unfold pathClean
  apply string_eq_of_data
  show pathCleanL ("/var/run/secrets/gcp/".data ++ ((l ++ ['/']) ++ "key.json".data))
      = "/var/run/secrets/gcp/".data ++ (l ++ '/' :: "key.json".data)
  rw [List.append_assoc]
  exact pathCleanL_key l h1l h2 h3l h4l

/-- Effect of `removeSelfPendingInitializer` on a pod with a non-nil,
non-empty pending list: the head is dropped; a singleton list becomes nil. -/
theorem removeSelf_pop (pod : Pod) (inits : Initializers) (x : Initializer)
    (xs : List Initializer)
    (hI : pod.metadata.initializers = some inits) (hp : inits.pending = some (x :: xs)) :
    removeSelfPendingInitializer pod =
      withPending pod (if xs = [] then none else some xs) := by
  cases xs with
  | nil => simp [removeSelfPendingInitializer, withPending, hI, hp, goSlice]
  | cons y ys => simp [removeSelfPendingInitializer, withPending, hI, hp, goSlice]

/-! ### Claims -/

/-- C1: the injection loop appends the Volume inside the per-container
loop, so a two-container eligible object gains TWO identical Volumes named
`gcp-sa-1`, not one — in both the Pod variant (`modifyPodSpec`) and the
Deployment variant (`initializeDeployment`). -/
theorem claim1_volume_per_container :
    ((modifyPodSpec (some podTwoContainers)).fst.map
        (fun p => p.spec.volumes.map Volume.name))
      = some ["gcp-sa-1", "gcp-sa-1"] ∧
    ((initializeDeployment depTwoContainers).map
        (fun t => t.pushed.map (fun d2 => d2.template.volumes.map Volume.name)))
      = .ok (some ["gcp-sa-1", "gcp-sa-1"]) :=
  ⟨rfl, rfl⟩

/-- C2: `needsInitialization` returns true iff the pending-initializer
structure is present and its (non-nil, non-empty) pending list has this
component's name at index 0; whenever it returns false, the handler
attempts no patch and leaves the object unchanged. -/
theorem claim2_gate_iff_and_skip (pod : Pod) (cloneFails : Bool) :
    (needsInitialization pod = true ↔
      ∃ inits p0 rest, pod.metadata.initializers = some inits ∧
        goSlice inits.pending = p0 :: rest ∧ p0.name = initializerName) ∧
    (needsInitialization pod = false →
      (addFunc pod cloneFails).patchCount = 0 ∧
      (addFunc pod cloneFails).patchNew = none ∧
      (addFunc pod cloneFails).origAfter = pod) := by
  constructor
  · cases hI : pod.metadata.initializers with
    | none => simp [needsInitialization, hI]
    | some inits =>
      cases hp : goSlice inits.pending with
      | nil => simp [needsInitialization, hI, hp]
      | cons p0 rest => simp [needsInitialization, hI, hp, beq_iff_eq]
  · intro h
    simp [addFunc, h]

/-- C2 witness: a pod with no initializers is skipped untouched. -/
theorem claim2_gate_iff_and_skip_check :
    (addFunc podNoInits false).patchCount = 0 ∧
    (addFunc podNoInits false).patchNew = none ∧
    (addFunc podNoInits false).origAfter = podNoInits :=
  (claim2_gate_iff_and_skip podNoInits false).2 rfl

/-- C3: popping a non-nil pending queue of length 1 yields a nil pending
slice; popping a queue of length N greater than 1 keeps exactly the N-1
remaining entries in their original relative order. -/
theorem claim3_queue_pop (pod : Pod) (inits : Initializers) (x : Initializer)
    (xs : List Initializer)
    (hI : pod.metadata.initializers = some inits)
    (hp : inits.pending = some (x :: xs)) :
    (removeSelfPendingInitializer pod).metadata.initializers =
      some { pending := if xs = [] then none else some xs } := by
  rw [removeSelf_pop pod inits x xs hI hp]
  rfl

/-- C3 witness: concrete singleton and two-element queues. -/
theorem claim3_queue_pop_check :
    (removeSelfPendingInitializer podTwoPending).metadata.initializers
        = some { pending := some [{ name := "d.e.f" }] } ∧
    (removeSelfPendingInitializer podOnePending).metadata.initializers
        = some { pending := none } :=
  ⟨claim3_queue_pop podTwoPending
      { pending := some [{ name := "a.b.c" }, { name := "d.e.f" }] }
      { name := "a.b.c" } [{ name := "d.e.f" }] rfl rfl,
   claim3_queue_pop podOnePending
      { pending := some [{ name := "a.b.c" }] }
      { name := "a.b.c" } [] rfl rfl⟩

/-- C4: when cloning fails on an eligible object, the clone error is
logged, the original object is unchanged and no patch is attempted (the
handler, lacking an early return, dereferences the nil clone and crashes
in `removeSelfPendingInitializer` before reaching `patchPod`). -/
theorem claim4_clone_failure_no_patch (pod : Pod) (h : needsInitialization pod = true) :
    (addFunc pod true).cloneErrorLogged = true ∧
    (addFunc pod true).origAfter = pod ∧
    (addFunc pod true).patchCount = 0 ∧
    (addFunc pod true).patchNew = none ∧
    (addFunc pod true).crashed = true := by
  simp [addFunc, h, modifyPodSpec, removeSelfPendingInitializerGo]

/-- C4 witness: an eligible pod with a failing clone. -/
theorem claim4_clone_failure_no_patch_check :
    (addFunc podEligible true).cloneErrorLogged = true ∧
    (addFunc podEligible true).origAfter = podEligible ∧
    (addFunc podEligible true).patchCount = 0 ∧
    (addFunc podEligible true).patchNew = none ∧
    (addFunc podEligible true).crashed = true :=
  claim4_clone_failure_no_patch podEligible rfl

/-- C5: `modifyPodSpec` on an annotated object with ZERO containers
returns the object unchanged but reports `true` ("modified"), although no
container loop iteration ran — contradicting the claim (and the
function's own doc comment); the nil-object half of the claim does
hold. -/
theorem claim5_zero_containers_flag :
    modifyPodSpec (some podZeroContainers) = (some podZeroContainers, true) ∧
    modifyPodSpec none = (none, false) :=
  ⟨rfl, rfl⟩

/-- C6: on an eligible object whose annotation is absent, the handler
reports no injection, still pops the queue, and submits exactly one patch
carrying the popped object with an otherwise untouched spec. -/
theorem claim6_annotation_absent_pop_persisted (pod : Pod) (inits : Initializers)
    (x : Initializer) (xs : List Initializer)
    (hg : needsInitialization pod = true)
    (hI : pod.metadata.initializers = some inits)
    (hp : inits.pending = some (x :: xs))
    (ha : mapLookup (goMap pod.metadata.annotations) annotationKey = none) :
    (addFunc pod false).injected = some false ∧
    (addFunc pod false).patchCount = 1 ∧
    (addFunc pod false).patchNew
      = some (withPending pod (if xs = [] then none else some xs)) := by
  have hm : modifyPodSpec (some pod) = (some pod, false) := by
    cases hA : pod.metadata.annotations with
    | none => simp [modifyPodSpec, hA]
    | some annots =>
      have hl : mapLookup annots annotationKey = none := by
        rw [hA] at ha
        simpa [goMap] using ha
      simp [modifyPodSpec, hA, hl]
  simp [addFunc, hg, hm, removeSelfPendingInitializerGo,
    removeSelf_pop pod inits x xs hI hp]

/-- C6 witness: eligible pod without the annotation. -/
theorem claim6_annotation_absent_pop_persisted_check :
    (addFunc podEligible false).injected = some false ∧
    (addFunc podEligible false).patchCount = 1 ∧
    (addFunc podEligible false).patchNew = some (withPending podEligible none) :=
  claim6_annotation_absent_pop_persisted podEligible
    { pending := some [{ name := initializerName }] }
    { name := initializerName } [] rfl rfl rfl rfl

/-- C7 counterexample: with annotation value `..` the injected mount path
is the `path.Join`-cleaned `/var/run/secrets`, not the literal
`<secretMountRoot>/..` that the claim asserts for every annotation
value. -/
theorem claim7_counterexample :
    ((modifyPodSpec (some podDotDot)).fst.map
        (fun p => p.spec.containers.map
          (fun c => (c.volumeMounts.getLast?).map VolumeMount.mountPath)))
      = some [some "/var/run/secrets"] ∧
    ¬("/var/run/secrets" = secretMountPath ++ "..") :=
  ⟨rfl, by decide⟩

/-- C7 (amended): for an eligible object whose annotation value is a plain
name (nonempty, without `/`, and neither `.` nor `..`), every container's
last VolumeMount after mutation has path `<secretMountRoot><S>`, is
read-only, and the appended env var value is that path plus
`/key.json`. -/
theorem claim7_injected_paths (pod : Pod) (annots : List (String × String)) (sa : String)
    (hA : pod.metadata.annotations = some annots)
    (hsa : mapLookup annots annotationKey = some sa)
    (h1 : sa ≠ "") (h2 : '/' ∉ sa.data) (h3 : sa ≠ ".") (h4 : sa ≠ "..")
    (_hc : pod.spec.containers ≠ []) :
    (modifyPodSpec (some pod)).snd = true ∧
    ∃ p, (modifyPodSpec (some pod)).fst = some p ∧
      p.spec.containers.length = pod.spec.containers.length ∧
      ∀ c ∈ p.spec.containers,
        c.volumeMounts.getLast? = some (specMountFor sa) ∧
        c.env.getLast? = some (specEnvFor sa) := by
  have hm : modifyPodSpec (some pod)
      = (some { pod with spec := modifyLoop sa pod.spec }, true) := by
    simp [modifyPodSpec, hA, hsa]
  refine ⟨by rw [hm], { pod with spec := modifyLoop sa pod.spec }, by rw [hm],
    by simp [modifyLoop], ?_⟩
  intro c hcm
  have hcm2 : c ∈ List.map (injectContainer sa) pod.spec.containers := hcm
  obtain ⟨c0, hc0, rfl⟩ := List.mem_map.mp hcm2
  constructor
  · show (injectContainer sa c0).volumeMounts.getLast? = some (specMountFor sa)
    simp [injectContainer, getLast?_append_one, specMountFor,
      pathJoin2_mount sa h1 h2 h3 h4]
  · show (injectContainer sa c0).env.getLast? = some (specEnvFor sa)
    simp [injectContainer, getLast?_append_one, specEnvFor,
      pathJoin2_mount sa h1 h2 h3 h4, pathJoin2_key sa h1 h2 h3 h4]

/-- C7 witness: single-container pod with annotation `sa-1`. -/
theorem claim7_injected_paths_check :
    (modifyPodSpec (some podMount)).snd = true ∧
    ∃ p, (modifyPodSpec (some podMount)).fst = some p ∧
      p.spec.containers.length = podMount.spec.containers.length ∧
      ∀ c ∈ p.spec.containers,
        c.volumeMounts.getLast? = some (specMountFor "sa-1") ∧
        c.env.getLast? = some (specEnvFor "sa-1") :=
  claim7_injected_paths podMount [(annotationKey, "sa-1")] "sa-1" rfl rfl
    (by decide) (by decide) (by decide) (by decide) (by decide)

/-- C8: the Deployment variant's in-place queue pop writes through the
original deployment's slice: with two pending initializers the original
object's pending list reads `[a.b.c, a.b.c]` after the pop, so the
original is NOT left bit-for-bit unchanged. -/
theorem claim8_original_backing_array_mutated :
    ((initializeDeployment depAliased).map DeployTrace.origAfter) = .ok depAliasedAfter ∧
    ¬(depAliasedAfter = depAliased) :=
  ⟨rfl, by decide⟩

/-- C9: the Deployment variant indexes `Pending[0]` guarded only by the
nil check on the `Initializers` struct, so an object with the struct
present and an empty pending list panics (index out of range) instead of
being skipped; the Pod variant's gate correctly returns false. -/
theorem claim9_empty_pending_panics :
    initializeDeployment depEmptyPending = Except.error GoPanic.indexOutOfRange ∧
    needsInitialization podEmptyPending = false :=
  ⟨rfl, rfl⟩

/-- C10: `removeSelfPendingInitializer` on a non-nil pod whose initializer
struct is nil, or whose pending slice is nil or empty, returns without
failure and leaves the pod exactly unchanged. -/
theorem claim10_guard_noop (pod : Pod)
    (h : pod.metadata.initializers = none ∨
      ∃ inits, pod.metadata.initializers = some inits ∧ goSlice inits.pending = []) :
    removeSelfPendingInitializerGo (some pod) = Except.ok pod := by
  rcases h with hI | ⟨inits, hI, hp⟩
  · simp [removeSelfPendingInitializerGo, removeSelfPendingInitializer, hI]
  · simp [removeSelfPendingInitializerGo, removeSelfPendingInitializer, hI, hp]

/-- C10 witness: the three no-op shapes from the repository's own test. -/
theorem claim10_guard_noop_check :
    removeSelfPendingInitializerGo (some podNoInits) = Except.ok podNoInits ∧
    removeSelfPendingInitializerGo (some podNilPending) = Except.ok podNilPending ∧
    removeSelfPendingInitializerGo (some podEmptyPending) = Except.ok podEmptyPending :=
  ⟨claim10_guard_noop podNoInits (Or.inl rfl),
   claim10_guard_noop podNilPending (Or.inr ⟨{ pending := none }, rfl, rfl⟩),
   claim10_guard_noop podEmptyPending (Or.inr ⟨{ pending := some [] }, rfl, rfl⟩)⟩

end GkeInit
